import Mathlib

/-!
Shallow embedding of the ParkPass booking system.

The repository ships a SQL schema migration
(`supabase/migrations/20250619144511_sunny_term.sql`) — tables, CHECK and
UNIQUE constraints, row-level-security policies, column defaults and
triggers — together with a thin TypeScript client (`src/lib/supabase.ts`)
that only declares the row types.  The booking-engine operations themselves
(`checkAndReserve`, the booking state machine, `submitProof`,
`submitReview`) are not part of the repository's code; they are modelled
here from the spec, while every table constraint, column default and
trigger is translated directly from the migration file.

Conventions: timestamps are `Int` (an abstract discrete timeline), money
amounts are `Int` (`decimal(10,2)` values scaled to cents), ids are `Nat`,
SQL `text` is `String`.  `random()` (a double in `[0,1)`) is modelled as a
rational number, and `gen_random_bytes(16)` as an explicit list of 16 byte
values handed to the operation by its environment.
-/

namespace ParkPass

/-- `CREATE TYPE booking_status AS ENUM ('pending','confirmed','active','completed','cancelled')`. -/
inductive BookingStatus
  | pending
  | confirmed
  | active
  | completed
  | cancelled
  deriving DecidableEq, Repr

/-- `CREATE TYPE payment_status AS ENUM ('pending','verified','rejected')`. -/
inductive PaymentStatus
  | pending
  | verified
  | rejected
  deriving DecidableEq, Repr

/-- `CREATE TYPE user_role AS ENUM ('user','owner','admin')`. -/
inductive UserRole
  | user
  | owner
  | admin
  deriving DecidableEq, Repr

/-- Error taxonomy of spec §7. -/
inductive Err
  | validationError
  | capacityExhausted
  | resourceInactive
  | notFound
  | invalidTransition
  | alreadyExists
  | invalidState
  | notAuthorized
  | issuanceFailure
  deriving DecidableEq, Repr

/-- Row of `parking_spots` (the columns the claims touch). -/
structure ParkingSpot where
  id : Nat
  owner_id : Nat
  total_slots : Int
  available_slots : Int
  price : Int
  images : List String
  is_active : Bool
  deriving DecidableEq, Repr

/-- Row of `availability_blocks`. -/
structure AvailabilityBlock where
  id : Nat
  spot_id : Nat
  start_time : Int
  end_time : Int
  slots_affected : Int
  deriving DecidableEq, Repr

/-- Row of `bookings`.  The SQL table has no units column (each row claims one
slot); the spec's `checkAndReserve` carries a per-booking `unitsRequested`,
so the field `units` is modelled from the spec (default 1). -/
structure Booking where
  id : Nat
  user_id : Nat
  spot_id : Nat
  start_time : Int
  end_time : Int
  total_cost : Int
  units : Int
  status : BookingStatus
  payment_status : PaymentStatus
  qr_code : String
  pin : String
  confirmed_at : Option Int
  deriving DecidableEq, Repr

/-- Row of `payment_slips`. -/
structure PaymentSlip where
  id : Nat
  booking_id : Nat
  image_url : String
  status : PaymentStatus
  verified_by : Option Nat
  deriving DecidableEq, Repr

/-- Row of `reviews`. -/
structure Review where
  id : Nat
  booking_id : Nat
  user_id : Nat
  spot_id : Nat
  rating : Int
  is_anonymous : Bool
  deriving DecidableEq, Repr

/-- Row of `profiles`. -/
structure Profile where
  id : Nat
  email : String
  name : String
  role : UserRole
  deriving DecidableEq, Repr

/-- Row of `auth.users` (the external identity system): id, email and the
`raw_user_meta_data` fields read by `handle_new_user`. -/
structure AuthUser where
  id : Nat
  email : String
  meta_name : Option String
  meta_role : Option UserRole
  deriving DecidableEq, Repr

/-- The persisted state the engine operates on. -/
structure EngineState where
  spots : List ParkingSpot
  blocks : List AvailabilityBlock
  bookings : List Booking
  slips : List PaymentSlip
  reviews : List Review
  profiles : List Profile
  next_id : Nat
  deriving Repr

/-- The empty database. -/
def initState : EngineState :=
  { spots := [], blocks := [], bookings := [], slips := [], reviews := [],
    profiles := [], next_id := 0 }

/-- status ∈ {pending, confirmed, active}: the statuses that hold capacity. -/
def BookingStatus.isLive : BookingStatus → Bool
  | .pending => true
  | .confirmed => true
  | .active => true
  | _ => false

/-- `completed` and `cancelled` are terminal. -/
def BookingStatus.isTerminal : BookingStatus → Bool
  | .completed => true
  | .cancelled => true
  | _ => false

/-- Half-open overlap test from the spec:
`existing.start < I.end AND existing.end > I.start`. -/
def overlaps (s1 e1 s2 e2 : Int) : Bool :=
  decide (s1 < e2) && decide (e1 > s2)

/-- Modelled from the spec: concurrent demand of §4.1 — the sum of
`unitsRequested` of live bookings on the resource overlapping `[s,e)` plus
`slots_affected` of overlapping availability blocks. -/
def concurrentDemand (st : EngineState) (spotId : Nat) (s e : Int) : Int :=
  ((st.bookings.filter fun b =>
      b.spot_id == spotId && b.status.isLive && overlaps b.start_time b.end_time s e).map
    Booking.units).sum
  + ((st.blocks.filter fun blk =>
      blk.spot_id == spotId && overlaps blk.start_time blk.end_time s e).map
    AvailabilityBlock.slots_affected).sum

def findSpot (st : EngineState) (spotId : Nat) : Option ParkingSpot :=
  st.spots.find? fun sp => sp.id == spotId

def findBooking (st : EngineState) (bookingId : Nat) : Option Booking :=
  st.bookings.find? fun b => b.id == bookingId

/-- One hexadecimal digit, lowercase, as produced by `encode(_, 'hex')`. -/
def hexDigit (n : Nat) : Char :=
  if n < 10 then Char.ofNat (48 + n) else Char.ofNat (87 + n)

/-- `encode(bytes, 'hex')`: two lowercase hex digits per byte. -/
def hexEncode (bytes : List Nat) : String :=
  String.mk ((bytes.map fun b => [hexDigit (b / 16), hexDigit (b % 16)]).flatten)

/-- Decimal digits of `n`, most significant first, as `n::text` prints them.
Fuel-based so it reduces by iota in the kernel; `natToDecChars` supplies
enough fuel. -/
def natToDecCharsAux : Nat → Nat → List Char → List Char
  | 0, _, acc => acc
  | fuel + 1, n, acc =>
    if n < 10 then Char.ofNat (48 + n) :: acc
    else natToDecCharsAux fuel (n / 10) (Char.ofNat (48 + n % 10) :: acc)

/-- `n::text` for a nonnegative integer. -/
def natToDecChars (n : Nat) : List Char :=
  natToDecCharsAux (n + 1) n []

/-- Postgres `lpad(s, n, c)`: left-pad to length `n` with `c`, truncating to
the first `n` characters when `s` is longer. -/
def lpadChars (cs : List Char) (n : Nat) (c : Char) : List Char :=
  if n ≤ cs.length then cs.take n else List.replicate (n - cs.length) c ++ cs

/-- Column default of `bookings.pin`:
`lpad(floor(random() * 10000)::text, 4, '0')`, with `random()` modelled as a
rational in `[0,1)`. -/
def pinOfRand (r : ℚ) : String :=
  String.mk (lpadChars (natToDecChars (Int.toNat (Rat.floor (r * 10000)))) 4 '0')

/-- Value of a decimal digit string (big-endian). -/
def decodeDecChars (cs : List Char) : Nat :=
  cs.foldl (fun a c => 10 * a + (c.toNat - 48)) 0

/-- `INSERT` into `bookings`, enforcing the table's declared constraints:
`CHECK (end_time > start_time)`, `CHECK (total_cost > 0)` and
`qr_code text UNIQUE`.  `none` = the insert is rejected, nothing changes. -/
def insertBooking (st : EngineState) (b : Booking) : Option EngineState :=
  if b.start_time < b.end_time ∧ 0 < b.total_cost ∧
      ∀ b0 ∈ st.bookings, b0.qr_code ≠ b.qr_code then
    some { st with bookings := b :: st.bookings, next_id := st.next_id + 1 }
  else none

/-- The fresh `pending` booking row `checkAndReserve` inserts on success. -/
def newBooking (st : EngineState) (spotId : Nat) (s e units : Int)
    (userId : Nat) (cost : Int) (bytes : List Nat) (r : ℚ) : Booking :=
  { id := st.next_id, user_id := userId, spot_id := spotId,
    start_time := s, end_time := e, total_cost := cost, units := units,
    status := .pending, payment_status := .pending,
    qr_code := hexEncode bytes, pin := pinOfRand r, confirmed_at := none }

/-- Modelled from the spec: `checkAndReserve(resourceId, interval,
unitsRequested)` of §4.1 — the repository contains only the schema the
ledger queries, not the ledger itself.  Validates the input, computes the
concurrent demand, and inserts a fresh `pending` booking (credentials from
the random oracle inputs `bytes` and `r`) when capacity suffices. -/
def checkAndReserve (st : EngineState) (spotId : Nat) (s e units : Int)
    (userId : Nat) (cost : Int) (bytes : List Nat) (r : ℚ) :
    Except Err (EngineState × Booking) :=
  if ¬ (s < e) ∨ units < 1 ∨ cost ≤ 0 then .error .validationError
  else
    match findSpot st spotId with
    | none => .error .notFound
    | some sp =>
      if sp.is_active = false then .error .resourceInactive
      else if units ≤ sp.total_slots - concurrentDemand st spotId s e then
        match insertBooking st (newBooking st spotId s e units userId cost bytes r) with
        | some st1 => .ok (st1, newBooking st spotId s e units userId cost bytes r)
        | none => .error .issuanceFailure
      else .error .capacityExhausted

/-- Modelled from the spec: the transition table of §4.2 with its guards. -/
def allowedTransition (b : Booking) (target : BookingStatus) (now : Int)
    (proofVerified : Bool) : Bool :=
  match b.status, target with
  | .pending, .confirmed => proofVerified
  | .pending, .cancelled => true
  | .confirmed, .cancelled => decide (now < b.start_time)
  | .confirmed, .active => decide (b.start_time ≤ now)
  | .active, .completed => decide (b.end_time ≤ now)
  | _, _ => false

/-- Apply an (already guarded) transition to the row; `confirmed_at` is set
exactly on `pending → confirmed`. -/
def applyTransition (b : Booking) (target : BookingStatus) (now : Int) : Booking :=
  if b.status = .pending ∧ target = .confirmed then
    { b with status := target, confirmed_at := some now }
  else { b with status := target }

/-- Modelled from the spec: the single status-change operation of the
booking state machine (§4.2).  Any transition outside the table is rejected
with an invalid-transition error and the state is returned unchanged. -/
def setBookingStatus (st : EngineState) (bookingId : Nat) (target : BookingStatus)
    (now : Int) (proofVerified : Bool) : Except Err EngineState :=
  match findBooking st bookingId with
  | none => .error .notFound
  | some b =>
    if allowedTransition b target now proofVerified then
      .ok { st with bookings := st.bookings.map fun b0 =>
        if b0.id == bookingId then applyTransition b0 target now else b0 }
    else .error .invalidTransition

/-- Modelled from the spec: `submitProof(bookingId, imageRef)` of §4.3,
with the `UNIQUE(booking_id)` constraint of `payment_slips` as the 1:1
invariant. -/
def submitProof (st : EngineState) (bookingId : Nat) (imageRef : String) :
    Except Err (EngineState × PaymentSlip) :=
  match findBooking st bookingId with
  | none => .error .notFound
  | some b =>
    if st.slips.any fun sl => sl.booking_id == bookingId then .error .alreadyExists
    else if b.status ≠ .pending then .error .invalidState
    else
      let sl : PaymentSlip :=
        { id := st.next_id, booking_id := bookingId, image_url := imageRef,
          status := .pending, verified_by := none }
      .ok ({ st with slips := sl :: st.slips, next_id := st.next_id + 1 }, sl)

/-- Modelled from the spec: `submitReview(bookingId, rating, ...)` of §4.5,
with the `CHECK (rating >= 1 AND rating <= 5)` and `UNIQUE(booking_id)`
constraints of `reviews` and the completed-booking guard of the insert
policy. -/
def submitReview (st : EngineState) (bookingId : Nat) (userId : Nat) (rating : Int) :
    Except Err (EngineState × Review) :=
  match findBooking st bookingId with
  | none => .error .notFound
  | some b =>
    if ¬ (1 ≤ rating ∧ rating ≤ 5) then .error .validationError
    else if st.reviews.any fun rv => rv.booking_id == bookingId then .error .alreadyExists
    else if b.status ≠ .completed then .error .invalidState
    else
      let rv : Review :=
        { id := st.next_id, booking_id := bookingId, user_id := userId,
          spot_id := b.spot_id, rating := rating, is_anonymous := false }
      .ok ({ st with reviews := rv :: st.reviews, next_id := st.next_id + 1 }, rv)

/-- `INSERT` into `parking_spots`, enforcing `CHECK valid_slots`,
`CHECK valid_price` and `CHECK valid_images`. -/
def insertParkingSpot (st : EngineState) (sp : ParkingSpot) : Option EngineState :=
  if 0 ≤ sp.available_slots ∧ sp.available_slots ≤ sp.total_slots ∧ 0 < sp.price ∧
      1 ≤ sp.images.length ∧ sp.images.length ≤ 3 then
    some { st with spots := sp :: st.spots }
  else none

/-- `UPDATE parking_spots SET available_slots = n WHERE id = spotId`: the
`CHECK valid_slots` constraint rejects the whole update when any updated row
would violate `0 <= available_slots <= total_slots`. -/
def updateAvailableSlots (st : EngineState) (spotId : Nat) (n : Int) : Option EngineState :=
  let upd := st.spots.map fun sp =>
    if sp.id == spotId then { sp with available_slots := n } else sp
  if ∀ sp ∈ upd, 0 ≤ sp.available_slots ∧ sp.available_slots ≤ sp.total_slots then
    some { st with spots := upd }
  else none

/-- `INSERT` into `availability_blocks`, enforcing
`CHECK valid_block_time (end_time > start_time)`. -/
def insertAvailabilityBlock (st : EngineState) (blk : AvailabilityBlock) :
    Option EngineState :=
  if blk.start_time < blk.end_time then
    some { st with blocks := blk :: st.blocks }
  else none

/-- `split_part(email, '@', 1)`: the part of the string before the first `@`. -/
def splitPart1 (s : String) : String :=
  String.mk (s.data.takeWhile fun c => c ≠ '@')

/-- The body of the `handle_new_user()` trigger function: inserts a profile
row for the new auth user, name defaulting to the email's local part and
role to `'user'`. -/
def handle_new_user (st : EngineState) (u : AuthUser) : EngineState :=
  let p : Profile :=
    { id := u.id, email := u.email,
      name := u.meta_name.getD (splitPart1 u.email),
      role := u.meta_role.getD .user }
  { st with profiles := p :: st.profiles }

/-- The `on_auth_user_created` trigger: `AFTER INSERT ON auth.users FOR EACH
ROW EXECUTE FUNCTION handle_new_user()` — an insert performed by the
external identity system fires `handle_new_user` on the core's state. -/
def insertAuthUser (st : EngineState) (u : AuthUser) : EngineState :=
  handle_new_user st u

/-- One successful engine operation (the spec's operation surface, §6,
together with the schema-level inserts and updates). -/
inductive Step : EngineState → EngineState → Prop
  | addSpot {st st1 : EngineState} (sp : ParkingSpot) :
      insertParkingSpot st sp = some st1 → Step st st1
  | setSlots {st st1 : EngineState} (spotId : Nat) (n : Int) :
      updateAvailableSlots st spotId n = some st1 → Step st st1
  | addBlock {st st1 : EngineState} (blk : AvailabilityBlock) :
      insertAvailabilityBlock st blk = some st1 → Step st st1
  | reserve {st st1 : EngineState} (spotId : Nat) (s e units : Int) (userId : Nat)
      (cost : Int) (bytes : List Nat) (r : ℚ) (b : Booking) :
      checkAndReserve st spotId s e units userId cost bytes r = .ok (st1, b) →
      Step st st1
  | setStatus {st st1 : EngineState} (bookingId : Nat) (target : BookingStatus)
      (now : Int) (proofVerified : Bool) :
      setBookingStatus st bookingId target now proofVerified = .ok st1 → Step st st1
  | proofStep {st st1 : EngineState} (bookingId : Nat) (imageRef : String)
      (sl : PaymentSlip) :
      submitProof st bookingId imageRef = .ok (st1, sl) → Step st st1
  | reviewStep {st st1 : EngineState} (bookingId userId : Nat) (rating : Int)
      (rv : Review) :
      submitReview st bookingId userId rating = .ok (st1, rv) → Step st st1
  | authIns (st : EngineState) (u : AuthUser) : Step st (insertAuthUser st u)

/-- States the engine can reach from the empty database. -/
def Reachable (st : EngineState) : Prop :=
  Relation.ReflTransGen Step initState st

/-- The persistent-state invariants the claims are about: pairwise-distinct
booking codes (`qr_code UNIQUE`), at most one payment slip and one review
per booking (`UNIQUE(booking_id)`), `CHECK valid_booking_time` and
`CHECK valid_cost` on every booking row, `CHECK valid_slots` on every
parking-spot row. -/
def Inv (st : EngineState) : Prop :=
  st.bookings.Pairwise (fun a b => a.qr_code ≠ b.qr_code) ∧
  st.slips.Pairwise (fun a b => a.booking_id ≠ b.booking_id) ∧
  st.reviews.Pairwise (fun a b => a.booking_id ≠ b.booking_id) ∧
  (∀ b ∈ st.bookings, b.start_time < b.end_time ∧ 0 < b.total_cost) ∧
  (∀ sp ∈ st.spots, 0 ≤ sp.available_slots ∧ sp.available_slots ≤ sp.total_slots)

/-! ### Characterization lemmas for the operations -/

theorem insertBooking_some {st st1 : EngineState} {b : Booking}
    (h : insertBooking st b = some st1) :
    st1 = { st with bookings := b :: st.bookings, next_id := st.next_id + 1 } ∧
    b.start_time < b.end_time ∧ 0 < b.total_cost ∧
    ∀ b0 ∈ st.bookings, b0.qr_code ≠ b.qr_code := by
  unfold insertBooking at h
  split at h
  · rename_i hc
    exact ⟨(Option.some.inj h).symm, hc.1, hc.2.1, hc.2.2⟩
  · cases h

theorem insertBooking_of_valid {st : EngineState} {b : Booking}
    (h1 : b.start_time < b.end_time) (h2 : 0 < b.total_cost)
    (h3 : ∀ b0 ∈ st.bookings, b0.qr_code ≠ b.qr_code) :
    insertBooking st b =
      some { st with bookings := b :: st.bookings, next_id := st.next_id + 1 } := by
  unfold insertBooking
  rw [if_pos ⟨h1, h2, h3⟩]

/-- With a valid input on an active resource, `checkAndReserve` fails with
`capacityExhausted` whenever the remaining capacity is below the request. -/
theorem checkAndReserve_capacity_fail {st : EngineState} {spotId : Nat}
    {s e units : Int} {userId : Nat} {cost : Int} {bytes : List Nat} {r : ℚ}
    {sp : ParkingSpot}
    (hsp : findSpot st spotId = some sp) (hact : sp.is_active = true)
    (hse : s < e) (hu : 1 ≤ units) (hcost : 0 < cost)
    (hover : sp.total_slots - concurrentDemand st spotId s e < units) :
    checkAndReserve st spotId s e units userId cost bytes r =
      .error .capacityExhausted := by
  unfold checkAndReserve
  rw [if_neg (by omega), hsp]
  simp only
  rw [if_neg (by simp [hact]), if_neg (by omega)]

/-- With a valid input on an active resource, a fresh code and enough
remaining capacity, `checkAndReserve` succeeds and inserts the new pending
booking. -/
theorem checkAndReserve_success {st : EngineState} {spotId : Nat}
    {s e units : Int} {userId : Nat} {cost : Int} {bytes : List Nat} {r : ℚ}
    {sp : ParkingSpot}
    (hsp : findSpot st spotId = some sp) (hact : sp.is_active = true)
    (hse : s < e) (hu : 1 ≤ units) (hcost : 0 < cost)
    (hfresh : ∀ b0 ∈ st.bookings, b0.qr_code ≠ hexEncode bytes)
    (hcap : units ≤ sp.total_slots - concurrentDemand st spotId s e) :
    checkAndReserve st spotId s e units userId cost bytes r =
      .ok ({ st with
               bookings := newBooking st spotId s e units userId cost bytes r :: st.bookings,
               next_id := st.next_id + 1 },
           newBooking st spotId s e units userId cost bytes r) := by
  unfold checkAndReserve
  rw [if_neg (by omega), hsp]
  simp only
  rw [if_neg (by simp [hact]), if_pos hcap,
    @insertBooking_of_valid st (newBooking st spotId s e units userId cost bytes r)
      hse hcost hfresh]

theorem checkAndReserve_ok {st st1 : EngineState} {spotId : Nat}
    {s e units : Int} {userId : Nat} {cost : Int} {bytes : List Nat} {r : ℚ}
    {b : Booking}
    (h : checkAndReserve st spotId s e units userId cost bytes r = .ok (st1, b)) :
    b = newBooking st spotId s e units userId cost bytes r ∧
    insertBooking st b = some st1 := by
  unfold checkAndReserve at h
  split at h
  · cases h
  · split at h
    · cases h
    · split at h
      · cases h
      · split at h
        · split at h
          · rename_i hins
            obtain ⟨h1, h2⟩ := Prod.mk.injEq .. ▸ Except.ok.inj h
            exact ⟨h2.symm, h2 ▸ h1 ▸ hins⟩
          · cases h
        · cases h

theorem setBookingStatus_ok {st st1 : EngineState} {bookingId : Nat}
    {target : BookingStatus} {now : Int} {proofVerified : Bool}
    (h : setBookingStatus st bookingId target now proofVerified = .ok st1) :
    ∃ b, findBooking st bookingId = some b ∧
      allowedTransition b target now proofVerified = true ∧
      st1 = { st with bookings := st.bookings.map fun b0 =>
        if b0.id == bookingId then applyTransition b0 target now else b0 } := by
  unfold setBookingStatus at h
  split at h
  · cases h
  · rename_i b hb
    split at h
    · rename_i hallow
      exact ⟨b, hb, hallow, (Except.ok.inj h).symm⟩
    · cases h

theorem submitProof_ok {st st1 : EngineState} {bookingId : Nat}
    {imageRef : String} {sl : PaymentSlip}
    (h : submitProof st bookingId imageRef = .ok (st1, sl)) :
    ∃ b, findBooking st bookingId = some b ∧
      (∀ sl0 ∈ st.slips, sl0.booking_id ≠ bookingId) ∧
      b.status = .pending ∧ sl.booking_id = bookingId ∧
      st1 = { st with slips := sl :: st.slips, next_id := st.next_id + 1 } := by
  unfold submitProof at h
  split at h
  · cases h
  · rename_i b hb
    split at h
    · cases h
    · rename_i hnone
      split at h
      · cases h
      · rename_i hpend
        obtain ⟨h1, h2⟩ := Prod.mk.injEq .. ▸ Except.ok.inj h
        refine ⟨b, hb, ?_, by simpa using hpend, by simp [← h2], by simp [← h1, ← h2]⟩
        intro sl0 hsl0 hcontra
        exact hnone (List.any_eq_true.mpr ⟨sl0, hsl0, by simp [hcontra]⟩)

theorem submitReview_ok {st st1 : EngineState} {bookingId userId : Nat}
    {rating : Int} {rv : Review}
    (h : submitReview st bookingId userId rating = .ok (st1, rv)) :
    ∃ b, findBooking st bookingId = some b ∧
      (∀ rv0 ∈ st.reviews, rv0.booking_id ≠ bookingId) ∧
      b.status = .completed ∧ 1 ≤ rating ∧ rating ≤ 5 ∧ rv.booking_id = bookingId ∧
      st1 = { st with reviews := rv :: st.reviews, next_id := st.next_id + 1 } := by
  unfold submitReview at h
  split at h
  · cases h
  · rename_i b hb
    split at h
    · cases h
    · rename_i hrange
      split at h
      · cases h
      · rename_i hnone
        split at h
        · cases h
        · rename_i hcompl
          obtain ⟨h1, h2⟩ := Prod.mk.injEq .. ▸ Except.ok.inj h
          push_neg at hrange
          refine ⟨b, hb, ?_, by simpa using hcompl, hrange.1, hrange.2,
            by simp [← h2], by simp [← h1, ← h2]⟩
          intro rv0 hrv0 hcontra
          exact hnone (List.any_eq_true.mpr ⟨rv0, hrv0, by simp [hcontra]⟩)

theorem insertParkingSpot_some {st st1 : EngineState} {sp : ParkingSpot}
    (h : insertParkingSpot st sp = some st1) :
    0 ≤ sp.available_slots ∧ sp.available_slots ≤ sp.total_slots ∧
    st1 = { st with spots := sp :: st.spots } := by
  unfold insertParkingSpot at h
  split at h
  · rename_i hc
    exact ⟨hc.1, hc.2.1, (Option.some.inj h).symm⟩
  · cases h

theorem updateAvailableSlots_some {st st1 : EngineState} {spotId : Nat} {n : Int}
    (h : updateAvailableSlots st spotId n = some st1) :
    (∀ sp ∈ st1.spots, 0 ≤ sp.available_slots ∧ sp.available_slots ≤ sp.total_slots) ∧
    st1.bookings = st.bookings ∧ st1.blocks = st.blocks ∧ st1.slips = st.slips ∧
    st1.reviews = st.reviews := by
  unfold updateAvailableSlots at h
  simp only at h
  split at h
  · rename_i hc
    cases h
    exact ⟨hc, rfl, rfl, rfl, rfl⟩
  · cases h

theorem insertAvailabilityBlock_some {st st1 : EngineState} {blk : AvailabilityBlock}
    (h : insertAvailabilityBlock st blk = some st1) :
    blk.start_time < blk.end_time ∧ st1 = { st with blocks := blk :: st.blocks } := by
  unfold insertAvailabilityBlock at h
  split at h
  · rename_i hc
    exact ⟨hc, (Option.some.inj h).symm⟩
  · cases h

/-- `applyTransition` only touches `status` and `confirmed_at`. -/
theorem applyTransition_fields (b : Booking) (t : BookingStatus) (n : Int) :
    (applyTransition b t n).qr_code = b.qr_code ∧
    (applyTransition b t n).start_time = b.start_time ∧
    (applyTransition b t n).end_time = b.end_time ∧
    (applyTransition b t n).total_cost = b.total_cost := by
  unfold applyTransition
  split <;> exact ⟨rfl, rfl, rfl, rfl⟩

/-- The update applied to each booking row by `setBookingStatus` keeps
`qr_code`, the interval and the cost of every row. -/
theorem statusMap_fields (bookingId : Nat) (target : BookingStatus) (now : Int)
    (b0 : Booking) :
    (if b0.id == bookingId then applyTransition b0 target now else b0).qr_code
        = b0.qr_code ∧
    (if b0.id == bookingId then applyTransition b0 target now else b0).start_time
        = b0.start_time ∧
    (if b0.id == bookingId then applyTransition b0 target now else b0).end_time
        = b0.end_time ∧
    (if b0.id == bookingId then applyTransition b0 target now else b0).total_cost
        = b0.total_cost := by
  split
  · exact applyTransition_fields ..
  · exact ⟨rfl, rfl, rfl, rfl⟩

theorem inv_init : Inv initState := by
  refine ⟨.nil, .nil, .nil, ?_, ?_⟩ <;> intro x hx <;> cases hx

theorem inv_step {st st1 : EngineState} (hs : Step st st1) :
    Inv st → Inv st1 := by
  cases hs with
  | addSpot sp h =>
    rintro ⟨hcode, hslip, hrev, hbook, hspot⟩
    obtain ⟨h1, h2, rfl⟩ := insertParkingSpot_some h
    refine ⟨hcode, hslip, hrev, hbook, ?_⟩
    intro sp0 hm
    rcases List.mem_cons.mp hm with rfl | hm
    · exact ⟨h1, h2⟩
    · exact hspot sp0 hm
  | setSlots spotId n h =>
    rintro ⟨hcode, hslip, hrev, hbook, hspot⟩
    obtain ⟨h1, hb, hbl, hsl, hrv⟩ := updateAvailableSlots_some h
    exact ⟨hb ▸ hcode, hsl ▸ hslip, hrv ▸ hrev, hb ▸ hbook, h1⟩
  | addBlock blk h =>
    rintro ⟨hcode, hslip, hrev, hbook, hspot⟩
    obtain ⟨h1, rfl⟩ := insertAvailabilityBlock_some h
    exact ⟨hcode, hslip, hrev, hbook, hspot⟩
  | reserve spotId s e units userId cost bytes r b h =>
    rintro ⟨hcode, hslip, hrev, hbook, hspot⟩
    obtain ⟨hb, hins⟩ := checkAndReserve_ok h
    obtain ⟨rfl, h1, h2, h3⟩ := insertBooking_some hins
    refine ⟨?_, hslip, hrev, ?_, hspot⟩
    · exact List.pairwise_cons.mpr
        ⟨fun a ha hcontra => h3 a ha hcontra.symm, hcode⟩
    · intro b0 hm
      rcases List.mem_cons.mp hm with rfl | hm
      · exact ⟨h1, h2⟩
      · exact hbook b0 hm
  | setStatus bookingId target now pv h =>
    rintro ⟨hcode, hslip, hrev, hbook, hspot⟩
    obtain ⟨b, hb, hallow, rfl⟩ := setBookingStatus_ok h
    refine ⟨?_, hslip, hrev, ?_, hspot⟩
    · rw [List.pairwise_map]
      refine hcode.imp fun hab => ?_
      rw [(statusMap_fields bookingId target now _).1,
        (statusMap_fields bookingId target now _).1]
      exact hab
    · intro b0 hm
      obtain ⟨a, ha, rfl⟩ := List.mem_map.mp hm
      obtain ⟨-, hst, hen, hco⟩ := statusMap_fields bookingId target now a
      rw [hst, hen, hco]
      exact hbook a ha
  | proofStep bookingId imageRef sl h =>
    rintro ⟨hcode, hslip, hrev, hbook, hspot⟩
    obtain ⟨b, hb, hfresh, hpend, hslid, rfl⟩ := submitProof_ok h
    refine ⟨hcode, List.pairwise_cons.mpr ⟨?_, hslip⟩, hrev, hbook, hspot⟩
    intro a ha
    rw [hslid]
    exact (hfresh a ha).symm
  | reviewStep bookingId userId rating rv h =>
    rintro ⟨hcode, hslip, hrev, hbook, hspot⟩
    obtain ⟨b, hb, hfresh, hcompl, hr1, hr5, hrvid, rfl⟩ := submitReview_ok h
    refine ⟨hcode, hslip, List.pairwise_cons.mpr ⟨?_, hrev⟩, hbook, hspot⟩
    intro a ha
    rw [hrvid]
    exact (hfresh a ha).symm
  | authIns u =>
    rintro ⟨hcode, hslip, hrev, hbook, hspot⟩
    exact ⟨hcode, hslip, hrev, hbook, hspot⟩

theorem inv_reachable {st : EngineState} (h : Reachable st) : Inv st := by
  induction h with
  | refl => exact inv_init
  | tail hsteps hstep ih => exact inv_step hstep ih

/-! ### Decimal rendering and the pin format -/

theorem natToDecCharsAux_append (fuel : Nat) : ∀ (n : Nat) (acc : List Char), n < fuel →
    natToDecCharsAux fuel n acc = natToDecCharsAux fuel n [] ++ acc := by
  induction fuel with
  | zero => intro n acc h; omega
  | succ fuel ih =>
    intro n acc h
    by_cases h10 : n < 10
    · simp [natToDecCharsAux, h10]
    · simp only [natToDecCharsAux, if_neg h10]
      rw [ih (n / 10) _ (by omega), ih (n / 10) [Char.ofNat (48 + n % 10)] (by omega),
        List.append_assoc]
      rfl

theorem natToDecCharsAux_fuel (fuel1 : Nat) : ∀ (fuel2 n : Nat) (acc : List Char),
    n < fuel1 → n < fuel2 →
    natToDecCharsAux fuel1 n acc = natToDecCharsAux fuel2 n acc := by
  induction fuel1 with
  | zero => intro fuel2 n acc h _; omega
  | succ fuel1 ih =>
    intro fuel2 n acc h1 h2
    cases fuel2 with
    | zero => omega
    | succ fuel2 =>
      by_cases h10 : n < 10
      · simp [natToDecCharsAux, h10]
      · simp only [natToDecCharsAux, if_neg h10]
        exact ih fuel2 (n / 10) _ (by omega) (by omega)

theorem natToDecChars_base {n : Nat} (h : n < 10) :
    natToDecChars n = [Char.ofNat (48 + n)] := by
  unfold natToDecChars
  simp [natToDecCharsAux, h]

theorem natToDecChars_step {n : Nat} (h : 10 ≤ n) :
    natToDecChars n = natToDecChars (n / 10) ++ [Char.ofNat (48 + n % 10)] := by
  unfold natToDecChars
  rw [show natToDecCharsAux (n + 1) n [] =
        natToDecCharsAux n (n / 10) [Char.ofNat (48 + n % 10)] from by
      simp [natToDecCharsAux, Nat.not_lt.mpr h]]
  rw [natToDecCharsAux_fuel n (n / 10 + 1) (n / 10) _ (by omega) (by omega)]
  exact natToDecCharsAux_append (n / 10 + 1) (n / 10) _ (by omega)

theorem natToDecChars_digits (n : Nat) : ∀ c ∈ natToDecChars n, c.isDigit = true := by
  induction n using Nat.strong_induction_on with
  | _ n ih =>
    by_cases h10 : n < 10
    · rw [natToDecChars_base h10]
      intro c hc
      simp at hc
      subst hc
      interval_cases n <;> decide
    · rw [natToDecChars_step (by omega)]
      intro c hc
      rcases List.mem_append.mp hc with hc | hc
      · exact ih (n / 10) (by omega) c hc
      · simp at hc
        subst hc
        have h9 : n % 10 < 10 := Nat.mod_lt _ (by omega)
        set m := n % 10 with hm
        clear_value m
        interval_cases m <;> decide

theorem decodeDecChars_append_digit (cs : List Char) (c : Char) :
    decodeDecChars (cs ++ [c]) = 10 * decodeDecChars cs + (c.toNat - 48) := by
  unfold decodeDecChars
  rw [List.foldl_append]
  rfl

theorem charOfNat_toNat_digit {m : Nat} (h : m < 10) :
    (Char.ofNat (48 + m)).toNat = 48 + m := by
  interval_cases m <;> decide

theorem decode_natToDecChars (n : Nat) : decodeDecChars (natToDecChars n) = n := by
  induction n using Nat.strong_induction_on with
  | _ n ih =>
    by_cases h10 : n < 10
    · rw [natToDecChars_base h10]
      unfold decodeDecChars
      simp [charOfNat_toNat_digit h10]
    · rw [natToDecChars_step (by omega), decodeDecChars_append_digit,
        ih (n / 10) (by omega), charOfNat_toNat_digit (Nat.mod_lt _ (by omega))]
      omega

theorem natToDecChars_length_le (k : Nat) : ∀ n : Nat, n < 10 ^ k → 1 ≤ k →
    (natToDecChars n).length ≤ k := by
  induction k with
  | zero => intro n _ h; omega
  | succ k ih =>
    intro n hn _
    by_cases h10 : n < 10
    · rw [natToDecChars_base h10]; simp
    · rw [natToDecChars_step (by omega)]
      have hk : 1 ≤ k := by
        rcases Nat.eq_zero_or_pos k with rfl | hpos
        · norm_num at hn; omega
        · exact hpos
      have hdiv : n / 10 < 10 ^ k := by
        rw [Nat.div_lt_iff_lt_mul (by norm_num)]
        calc n < 10 ^ (k + 1) := hn
          _ = 10 ^ k * 10 := pow_succ 10 k
      have := ih (n / 10) hdiv hk
      simp [List.length_append]
      omega

theorem natToDecChars_length_pos (n : Nat) : 1 ≤ (natToDecChars n).length := by
  by_cases h10 : n < 10
  · rw [natToDecChars_base h10]; simp
  · rw [natToDecChars_step (by omega)]; simp

theorem lpadChars_eq {cs : List Char} {n : Nat} {c : Char} (h : cs.length ≤ n) :
    lpadChars cs n c = List.replicate (n - cs.length) c ++ cs := by
  unfold lpadChars
  by_cases hc : n ≤ cs.length
  · have : cs.length = n := by omega
    rw [if_pos hc, List.take_of_length_le (by omega), this]
    simp
  · rw [if_neg hc]

theorem decodeDecChars_zeros (m : Nat) (cs : List Char) :
    decodeDecChars (List.replicate m '0' ++ cs) = decodeDecChars cs := by
  induction m with
  | zero => rfl
  | succ m ih =>
    rw [List.replicate_succ, List.cons_append]
    unfold decodeDecChars at *
    simpa using ih

/-! ### C7: pin format -/

/-- C7: the pin assigned by the `bookings.pin` column default is a 4-character
zero-padded decimal string whose numeric value is `floor(random() * 10000)`,
lies in `[0, 9999]`, and is drawn uniformly: each value `m` is hit exactly on
the interval `[m/10000, (m+1)/10000)` of the uniform source. -/
theorem C7_pin_format (r : ℚ) (h0 : 0 ≤ r) (h1 : r < 1) :
    ∃ n : Nat, n = Int.toNat (Rat.floor (r * 10000)) ∧ n ≤ 9999 ∧
      pinOfRand r = String.mk (lpadChars (natToDecChars n) 4 '0') ∧
      (pinOfRand r).length = 4 ∧
      (∀ c ∈ (pinOfRand r).data, c.isDigit = true) ∧
      decodeDecChars (pinOfRand r).data = n ∧
      ∀ m : Nat, m ≤ 9999 →
        (Int.toNat (Rat.floor (r * 10000)) = m ↔
          (m : ℚ) / 10000 ≤ r ∧ r < ((m : ℚ) + 1) / 10000) := by
  have hge : (0 : ℤ) ≤ Rat.floor (r * 10000) := by
    rw [Rat.le_floor]
    push_cast
    exact mul_nonneg h0 (by norm_num)
  have hlt : Rat.floor (r * 10000) < 10000 := by
    by_contra hcon
    push_neg at hcon
    rw [Rat.le_floor] at hcon
    push_cast at hcon
    nlinarith
  refine ⟨Int.toNat (Rat.floor (r * 10000)), rfl, by omega, rfl, ?_, ?_, ?_, ?_⟩
  · show (lpadChars (natToDecChars (Int.toNat (Rat.floor (r * 10000)))) 4 '0').length = 4
    rw [lpadChars_eq (natToDecChars_length_le 4 _ (by push_cast; omega) (by norm_num))]
    simp
    have := natToDecChars_length_le 4 (Int.toNat (Rat.floor (r * 10000)))
      (by push_cast; omega) (by norm_num)
    omega
  · show ∀ c ∈ lpadChars (natToDecChars (Int.toNat (Rat.floor (r * 10000)))) 4 '0',
      c.isDigit = true
    rw [lpadChars_eq (natToDecChars_length_le 4 _ (by push_cast; omega) (by norm_num))]
    intro c hc
    rcases List.mem_append.mp hc with hc | hc
    · rw [List.eq_of_mem_replicate hc]
      decide
    · exact natToDecChars_digits _ c hc
  · show decodeDecChars
        (lpadChars (natToDecChars (Int.toNat (Rat.floor (r * 10000)))) 4 '0')
      = Int.toNat (Rat.floor (r * 10000))
    rw [lpadChars_eq (natToDecChars_length_le 4 _ (by push_cast; omega) (by norm_num)),
      decodeDecChars_zeros, decode_natToDecChars]
  · intro m hm
    have hA : ((m : ℤ) ≤ Rat.floor (r * 10000)) ↔ ((m : ℚ) ≤ r * 10000) := by
      rw [Rat.le_floor]
      constructor <;> intro hx <;> exact_mod_cast hx
    have hB : ((m : ℤ) + 1 ≤ Rat.floor (r * 10000)) ↔ ((m : ℚ) + 1 ≤ r * 10000) := by
      rw [show (m : ℤ) + 1 = ((m + 1 : ℕ) : ℤ) by push_cast; ring, Rat.le_floor]
      constructor <;> intro hx <;> · push_cast at hx ⊢; linarith
    have hiff : Rat.floor (r * 10000) = (m : ℤ) ↔
        ((m : ℚ) ≤ r * 10000 ∧ r * 10000 < (m : ℚ) + 1) := by
      constructor
      · intro he
        refine ⟨hA.mp (by omega), ?_⟩
        by_contra hc
        push_neg at hc
        have := hB.mpr hc
        omega
      · rintro ⟨ha, hb⟩
        have h1' := hA.mpr ha
        have h2' : ¬ ((m : ℤ) + 1 ≤ Rat.floor (r * 10000)) :=
          fun hx => absurd (hB.mp hx) (by linarith)
        omega
    rw [show (Int.toNat (Rat.floor (r * 10000)) = m) ↔
        (Rat.floor (r * 10000) = (m : ℤ)) from by omega, hiff,
      div_le_iff₀ (by norm_num : (0:ℚ) < 10000), lt_div_iff₀ (by norm_num : (0:ℚ) < 10000)]

/-- Witness for C7 at the concrete uniform draw `r = 1/2`. -/
theorem C7_pin_format_witness :
    ∃ n : Nat, n = Int.toNat (Rat.floor ((1/2 : ℚ) * 10000)) ∧ n ≤ 9999 ∧
      pinOfRand (1/2) = String.mk (lpadChars (natToDecChars n) 4 '0') ∧
      (pinOfRand (1/2)).length = 4 ∧
      (∀ c ∈ (pinOfRand (1/2 : ℚ)).data, c.isDigit = true) ∧
      decodeDecChars (pinOfRand (1/2 : ℚ)).data = n ∧
      ∀ m : Nat, m ≤ 9999 →
        (Int.toNat (Rat.floor ((1/2 : ℚ) * 10000)) = m ↔
          (m : ℚ) / 10000 ≤ 1/2 ∧ (1/2 : ℚ) < ((m : ℚ) + 1) / 10000) :=
  C7_pin_format (1/2) (by norm_num) (by norm_num)

/-! ### C1: capacity check -/

/-- A concrete one-slot active spot used by the closed witnesses. -/
def wSpot : ParkingSpot :=
  { id := 1, owner_id := 7, total_slots := 1, available_slots := 1, price := 100,
    images := ["img"], is_active := true }

/-- A concrete engine state holding just `wSpot`. -/
def wState : EngineState := { initState with spots := [wSpot] }

/-- C1: on an active resource with a valid interval (and a positive cost, a
fresh code from the random source), `checkAndReserve` succeeds iff
`total_units - concurrentDemand ≥ unitsRequested`; when demand exceeds
capacity it fails with the capacity-exhausted error (and, the operation
returning only an error, performs no mutation). -/
theorem C1_checkAndReserve_capacity
    {st : EngineState} {spotId : Nat} {s e units : Int} {userId : Nat}
    {cost : Int} {bytes : List Nat} {r : ℚ} {sp : ParkingSpot}
    (hsp : findSpot st spotId = some sp) (hact : sp.is_active = true)
    (hse : s < e) (hu : 1 ≤ units) (hcost : 0 < cost)
    (hfresh : ∀ b0 ∈ st.bookings, b0.qr_code ≠ hexEncode bytes) :
    ((∃ st1 b, checkAndReserve st spotId s e units userId cost bytes r = .ok (st1, b)) ↔
      units ≤ sp.total_slots - concurrentDemand st spotId s e) ∧
    (sp.total_slots - concurrentDemand st spotId s e < units →
      checkAndReserve st spotId s e units userId cost bytes r =
        .error .capacityExhausted) := by
  constructor
  · constructor
    · rintro ⟨st1, b, hok⟩
      by_contra hcap
      rw [checkAndReserve_capacity_fail hsp hact hse hu hcost (by omega)] at hok
      cases hok
    · intro hcap
      exact ⟨_, _, checkAndReserve_success hsp hact hse hu hcost hfresh hcap⟩
  · intro hover
    exact checkAndReserve_capacity_fail hsp hact hse hu hcost hover

/-- Witness for C1 on the concrete one-slot state. -/
theorem C1_checkAndReserve_capacity_witness :
    ((∃ st1 b, checkAndReserve wState 1 0 1 1 9 100 [0] 0 = .ok (st1, b)) ↔
      (1 : Int) ≤ wSpot.total_slots - concurrentDemand wState 1 0 1) ∧
    (wSpot.total_slots - concurrentDemand wState 1 0 1 < 1 →
      checkAndReserve wState 1 0 1 1 9 100 [0] 0 = .error .capacityExhausted) :=
  C1_checkAndReserve_capacity (by decide) (by decide) (by decide) (by decide)
    (by decide) (by intro b0 hb0; cases hb0)

/-! ### C3: the transition table -/

/-- The boolean guard coincides with the transition table of §4.2 spelled out
as a disjunction. -/
theorem allowedTransition_iff (b : Booking) (target : BookingStatus) (now : Int)
    (pv : Bool) :
    allowedTransition b target now pv = true ↔
      ((b.status = .pending ∧ target = .confirmed ∧ pv = true) ∨
       (b.status = .pending ∧ target = .cancelled) ∨
       (b.status = .confirmed ∧ target = .cancelled ∧ now < b.start_time) ∨
       (b.status = .confirmed ∧ target = .active ∧ b.start_time ≤ now) ∨
       (b.status = .active ∧ target = .completed ∧ b.end_time ≤ now)) := by
  obtain ⟨id, uid, sid, stt, ent, tc, un, status, ps, qr, pn, ca⟩ := b
  unfold allowedTransition
  cases status <;> cases target <;> simp

theorem setBookingStatus_eq {st : EngineState} {bookingId : Nat}
    {target : BookingStatus} {now : Int} {pv : Bool} {b : Booking}
    (hb : findBooking st bookingId = some b) :
    setBookingStatus st bookingId target now pv =
      if allowedTransition b target now pv then
        .ok { st with bookings := st.bookings.map fun b0 =>
          if b0.id == bookingId then applyTransition b0 target now else b0 }
      else .error .invalidTransition := by
  unfold setBookingStatus
  rw [hb]

/-- C3: a status change succeeds exactly when it instantiates a row of the
transition table of §4.2 (with its guard), and any other attempt is rejected
with the invalid-transition error (the operation then yields no new state, so
the record is unchanged). -/
theorem C3_transition_table
    {st : EngineState} {bookingId : Nat} {target : BookingStatus} {now : Int}
    {proofVerified : Bool} {b : Booking}
    (hb : findBooking st bookingId = some b) :
    ((∃ st1, setBookingStatus st bookingId target now proofVerified = .ok st1) ↔
      ((b.status = .pending ∧ target = .confirmed ∧ proofVerified = true) ∨
       (b.status = .pending ∧ target = .cancelled) ∨
       (b.status = .confirmed ∧ target = .cancelled ∧ now < b.start_time) ∨
       (b.status = .confirmed ∧ target = .active ∧ b.start_time ≤ now) ∨
       (b.status = .active ∧ target = .completed ∧ b.end_time ≤ now))) ∧
    (allowedTransition b target now proofVerified = false →
      setBookingStatus st bookingId target now proofVerified =
        .error .invalidTransition) := by
  have heq := @setBookingStatus_eq st bookingId target now proofVerified b hb
  constructor
  · rw [← allowedTransition_iff]
    constructor
    · rintro ⟨st1, hok⟩
      rw [heq] at hok
      by_contra hcon
      rw [if_neg hcon] at hok
      cases hok
    · intro hallow
      rw [heq, if_pos hallow]
      exact ⟨_, rfl⟩
  · intro hfalse
    rw [heq, if_neg (by simp [hfalse])]

/-- A concrete pending booking and the state holding it, for the witnesses. -/
def wBooking : Booking :=
  { id := 2, user_id := 9, spot_id := 1, start_time := 0, end_time := 1,
    total_cost := 100, units := 1, status := .pending, payment_status := .pending,
    qr_code := "00", pin := "0000", confirmed_at := none }

def wStateB : EngineState := { wState with bookings := [wBooking] }

/-- Witness for C3: the pending booking in the concrete state. -/
theorem C3_transition_table_witness :
    ((∃ st1, setBookingStatus wStateB 2 .confirmed 0 true = .ok st1) ↔
      ((wBooking.status = .pending ∧ BookingStatus.confirmed = .confirmed ∧ true = true) ∨
       (wBooking.status = .pending ∧ BookingStatus.confirmed = .cancelled) ∨
       (wBooking.status = .confirmed ∧ BookingStatus.confirmed = .cancelled ∧
         (0:Int) < wBooking.start_time) ∨
       (wBooking.status = .confirmed ∧ BookingStatus.confirmed = .active ∧
         wBooking.start_time ≤ 0) ∨
       (wBooking.status = .active ∧ BookingStatus.confirmed = .completed ∧
         wBooking.end_time ≤ 0))) ∧
    (allowedTransition wBooking .confirmed 0 true = false →
      setBookingStatus wStateB 2 .confirmed 0 true = .error .invalidTransition) :=
  C3_transition_table (by decide)

/-! ### C6: the review gate -/

/-- The review row `submitReview` inserts on success. -/
def mkReview (st : EngineState) (bookingId userId : Nat) (rating : Int)
    (spotId : Nat) : Review :=
  { id := st.next_id, booking_id := bookingId, user_id := userId,
    spot_id := spotId, rating := rating, is_anonymous := false }

/-- C6: `submitReview` succeeds iff the booking is completed, no review
exists for it yet, and the rating is in `[1,5]`; in every other case it
returns an error (and, carrying no new state, creates no review). -/
theorem C6_submitReview_guard
    {st : EngineState} {bookingId userId : Nat} {rating : Int} {b : Booking}
    (hb : findBooking st bookingId = some b) :
    ((∃ st1 rv, submitReview st bookingId userId rating = .ok (st1, rv)) ↔
      (b.status = .completed ∧ (∀ rv0 ∈ st.reviews, rv0.booking_id ≠ bookingId) ∧
        1 ≤ rating ∧ rating ≤ 5)) ∧
    (¬ (b.status = .completed ∧ (∀ rv0 ∈ st.reviews, rv0.booking_id ≠ bookingId) ∧
        1 ≤ rating ∧ rating ≤ 5) →
      ∃ err, submitReview st bookingId userId rating = .error err) := by
  have hiff : (∃ st1 rv, submitReview st bookingId userId rating = .ok (st1, rv)) ↔
      (b.status = .completed ∧ (∀ rv0 ∈ st.reviews, rv0.booking_id ≠ bookingId) ∧
        1 ≤ rating ∧ rating ≤ 5) := by
    constructor
    · rintro ⟨st1, rv, hok⟩
      obtain ⟨b1, hb1, hfresh, hcompl, h1, h5, -, -⟩ := submitReview_ok hok
      rw [hb] at hb1
      cases hb1
      exact ⟨hcompl, hfresh, h1, h5⟩
    · rintro ⟨hcompl, hfresh, h1, h5⟩
      have heq : submitReview st bookingId userId rating = .ok
          ({ st with
               reviews := mkReview st bookingId userId rating b.spot_id :: st.reviews,
               next_id := st.next_id + 1 },
           mkReview st bookingId userId rating b.spot_id) := by
        unfold submitReview
        rw [hb]
        simp only
        rw [if_neg (by omega)]
        rw [if_neg (by
          intro hany
          obtain ⟨rv0, hrv0, hbeq⟩ := List.any_eq_true.mp hany
          exact hfresh rv0 hrv0 (by simpa using hbeq))]
        rw [if_neg (by simp [hcompl])]
        rfl
      exact ⟨_, _, heq⟩
  refine ⟨hiff, ?_⟩
  intro hnot
  cases hres : submitReview st bookingId userId rating with
  | ok p => exact absurd (hiff.mp ⟨p.1, p.2, by rw [hres]⟩) hnot
  | error err => exact ⟨err, rfl⟩

/-- A completed booking and a state holding it, for the C6 witness. -/
def wBookingDone : Booking :=
  { id := 3, user_id := 9, spot_id := 1, start_time := 0, end_time := 1,
    total_cost := 100, units := 1, status := .completed,
    payment_status := .verified, qr_code := "01", pin := "0001",
    confirmed_at := some 0 }

def wStateDone : EngineState := { wState with bookings := [wBookingDone] }

/-- Witness for C6 on the completed booking. -/
theorem C6_submitReview_guard_witness :
    ((∃ st1 rv, submitReview wStateDone 3 9 5 = .ok (st1, rv)) ↔
      (wBookingDone.status = .completed ∧
        (∀ rv0 ∈ wStateDone.reviews, rv0.booking_id ≠ 3) ∧
        (1:Int) ≤ 5 ∧ (5:Int) ≤ 5)) ∧
    (¬ (wBookingDone.status = .completed ∧
        (∀ rv0 ∈ wStateDone.reviews, rv0.booking_id ≠ 3) ∧
        (1:Int) ≤ 5 ∧ (5:Int) ≤ 5) →
      ∃ err, submitReview wStateDone 3 9 5 = .error err) :=
  C6_submitReview_guard (by decide)

/-! ### C5: 1:1 payment proof and review -/

/-- A confirmed booking with no payment slip, exhibiting the error type of
`submitProof` on a non-pending booking. -/
def wBookingConf : Booking :=
  { id := 2, user_id := 9, spot_id := 1, start_time := 0, end_time := 1,
    total_cost := 100, units := 1, status := .confirmed,
    payment_status := .verified, qr_code := "00", pin := "0000",
    confirmed_at := some 0 }

def wStateConf : EngineState := { wState with bookings := [wBookingConf] }

/-- C5 counterexample: on a booking that is not `pending` but has no
payment slip yet, `submitProof` fails with `invalidState` (the spec's §6/§7
taxonomy), not with `alreadyExists` as the claim words it. -/
theorem C5_counterexample :
    submitProof wStateConf 2 "slip.png" = .error .invalidState ∧
    Err.invalidState ≠ Err.alreadyExists := by
  exact ⟨rfl, by decide⟩

/-- C5 (amended): at any reachable state there is at most one PaymentSlip
and at most one Review per booking; `submitProof` fails with `alreadyExists`
when a slip already exists and with `invalidState` when the booking is not
`pending`; a second review submission for the same booking fails. -/
theorem C5_one_proof_one_review
    {st : EngineState} (h : Reachable st) :
    (st.slips.Pairwise (fun a c => a.booking_id ≠ c.booking_id) ∧
     st.reviews.Pairwise (fun a c => a.booking_id ≠ c.booking_id)) ∧
    (∀ bookingId imageRef, (∃ b, findBooking st bookingId = some b) →
      (∃ sl0 ∈ st.slips, sl0.booking_id = bookingId) →
      submitProof st bookingId imageRef = .error .alreadyExists) ∧
    (∀ bookingId imageRef b, findBooking st bookingId = some b →
      b.status ≠ .pending → (∀ sl0 ∈ st.slips, sl0.booking_id ≠ bookingId) →
      submitProof st bookingId imageRef = .error .invalidState) ∧
    (∀ bookingId userId rating, (∃ b, findBooking st bookingId = some b) →
      (∃ rv0 ∈ st.reviews, rv0.booking_id = bookingId) →
      ∃ err, submitReview st bookingId userId rating = .error err) := by
  obtain ⟨-, hslip, hrev, -, -⟩ := inv_reachable h
  refine ⟨⟨hslip, hrev⟩, ?_, ?_, ?_⟩
  · rintro bookingId imageRef ⟨b, hb⟩ ⟨sl0, hsl0, hid⟩
    unfold submitProof
    rw [hb]
    simp only
    rw [if_pos (List.any_eq_true.mpr ⟨sl0, hsl0, by simp [hid]⟩)]
  · intro bookingId imageRef b hb hnp hfresh
    unfold submitProof
    rw [hb]
    simp only
    rw [if_neg (by
      intro hany
      obtain ⟨sl0, hsl0, hbeq⟩ := List.any_eq_true.mp hany
      exact hfresh sl0 hsl0 (by simpa using hbeq))]
    rw [if_pos (by simpa using hnp)]
  · rintro bookingId userId rating ⟨b, hb⟩ ⟨rv0, hrv0, hid⟩
    cases hres : submitReview st bookingId userId rating with
    | ok p =>
      obtain ⟨b1, hb1, hfresh, -, -, -, -, -⟩ := submitReview_ok hres
      exact absurd hid (hfresh rv0 hrv0)
    | error err => exact ⟨err, rfl⟩

/-- Witness for C5 at the (reachable) empty database. -/
theorem C5_one_proof_one_review_witness :
    ((initState.slips.Pairwise (fun a c => a.booking_id ≠ c.booking_id) ∧
      initState.reviews.Pairwise (fun a c => a.booking_id ≠ c.booking_id)) ∧
     (∀ bookingId imageRef, (∃ b, findBooking initState bookingId = some b) →
       (∃ sl0 ∈ initState.slips, sl0.booking_id = bookingId) →
       submitProof initState bookingId imageRef = .error .alreadyExists) ∧
     (∀ bookingId imageRef b, findBooking initState bookingId = some b →
       b.status ≠ .pending → (∀ sl0 ∈ initState.slips, sl0.booking_id ≠ bookingId) →
       submitProof initState bookingId imageRef = .error .invalidState) ∧
     (∀ bookingId userId rating, (∃ b, findBooking initState bookingId = some b) →
       (∃ rv0 ∈ initState.reviews, rv0.booking_id = bookingId) →
       ∃ err, submitReview initState bookingId userId rating = .error err)) :=
  C5_one_proof_one_review Relation.ReflTransGen.refl

/-! ### C2: serialized concurrency, no oversell -/

theorem overlaps_self {s e : Int} (h : s < e) : overlaps s e s e = true := by
  unfold overlaps
  rw [decide_eq_true h]
  rfl

/-- Inserting a live overlapping booking raises the concurrent demand by its
units. -/
theorem concurrentDemand_insert (st : EngineState) (b : Booking) (spotId : Nat)
    (s e : Int) (hspot : b.spot_id = spotId) (hlive : b.status.isLive = true)
    (hov : overlaps b.start_time b.end_time s e = true) :
    concurrentDemand
        { st with bookings := b :: st.bookings, next_id := st.next_id + 1 }
        spotId s e
      = b.units + concurrentDemand st spotId s e := by
  have hcond : (b.spot_id == spotId && b.status.isLive
      && overlaps b.start_time b.end_time s e) = true := by
    simp [hspot, hlive, hov]
  unfold concurrentDemand
  simp only [List.filter_cons, hcond, if_pos, List.map_cons, List.sum_cons]
  ring

/-- One incoming `checkAndReserve` request for a single unit: the acting
user, the computed cost, and the two random-oracle inputs. -/
structure ReserveReq where
  userId : Nat
  cost : Int
  bytes : List Nat
  rand : ℚ
  deriving Repr

/-- Modelled from the spec (§5): concurrent `checkAndReserve` calls behave
as if globally serialized per resource, so N concurrent single-unit requests
are executed as a serial fold; each entry of the result list reports one
call's outcome. -/
def runRequests (spotId : Nat) (s e : Int) :
    EngineState → List ReserveReq → EngineState × List (Except Err Unit)
  | st, [] => (st, [])
  | st, q :: qs =>
    match checkAndReserve st spotId s e 1 q.userId q.cost q.bytes q.rand with
    | .ok (st1, _) =>
      let rest := runRequests spotId s e st1 qs
      (rest.1, .ok () :: rest.2)
    | .error err =>
      let rest := runRequests spotId s e st qs
      (rest.1, .error err :: rest.2)

theorem runRequests_count (spotId : Nat) (s e : Int) (sp : ParkingSpot)
    (hact : sp.is_active = true) (hse : s < e) :
    ∀ (reqs : List ReserveReq) (st : EngineState),
      findSpot st spotId = some sp →
      (∀ q ∈ reqs, 0 < q.cost) →
      (reqs.map fun q => hexEncode q.bytes).Nodup →
      (∀ q ∈ reqs, ∀ b0 ∈ st.bookings, b0.qr_code ≠ hexEncode q.bytes) →
      ((runRequests spotId s e st reqs).2.countP Except.isOk
          = min reqs.length (sp.total_slots - concurrentDemand st spotId s e).toNat) ∧
      (∀ x ∈ (runRequests spotId s e st reqs).2, x.isOk = false →
          x = .error .capacityExhausted) := by
  intro reqs
  induction reqs with
  | nil =>
    intro st hsp hcost hnodup hfresh
    constructor
    · simp [runRequests]
    · intro x hx
      simp [runRequests] at hx
  | cons q qs ih =>
    intro st hsp hcost hnodup hfresh
    by_cases hcap : (1 : Int) ≤ sp.total_slots - concurrentDemand st spotId s e
    · have hok := @checkAndReserve_success st spotId s e 1 q.userId q.cost q.bytes
        q.rand sp hsp hact hse (le_refl 1)
        (hcost q (List.mem_cons_self q qs)) (hfresh q (List.mem_cons_self q qs)) hcap
      have hrun : runRequests spotId s e st (q :: qs) =
          ((runRequests spotId s e
              { st with
                  bookings := newBooking st spotId s e 1 q.userId q.cost q.bytes q.rand
                    :: st.bookings,
                  next_id := st.next_id + 1 } qs).1,
           .ok () :: (runRequests spotId s e
              { st with
                  bookings := newBooking st spotId s e 1 q.userId q.cost q.bytes q.rand
                    :: st.bookings,
                  next_id := st.next_id + 1 } qs).2) := by
        simp [runRequests, hok]
      have hdem : concurrentDemand
          { st with
              bookings := newBooking st spotId s e 1 q.userId q.cost q.bytes q.rand
                :: st.bookings,
              next_id := st.next_id + 1 } spotId s e
          = 1 + concurrentDemand st spotId s e := by
        have := concurrentDemand_insert st
          (newBooking st spotId s e 1 q.userId q.cost q.bytes q.rand) spotId s e
          rfl rfl (overlaps_self hse)
        simpa using this
      have hnodup' : hexEncode q.bytes ∉ (qs.map fun q => hexEncode q.bytes) ∧
          (qs.map fun q => hexEncode q.bytes).Nodup := by
        rw [List.map_cons] at hnodup
        exact List.nodup_cons.mp hnodup
      have hfresh1 : ∀ q' ∈ qs, ∀ b0 ∈
          ({ st with
              bookings := newBooking st spotId s e 1 q.userId q.cost q.bytes q.rand
                :: st.bookings,
              next_id := st.next_id + 1 } : EngineState).bookings,
          b0.qr_code ≠ hexEncode q'.bytes := by
        intro q' hq' b0 hb0
        rcases List.mem_cons.mp hb0 with rfl | hb0
        · show hexEncode q.bytes ≠ hexEncode q'.bytes
          exact fun hcontra => hnodup'.1 (hcontra ▸ List.mem_map_of_mem _ hq')
        · exact hfresh q' (List.mem_cons_of_mem _ hq') b0 hb0
      have ihr := ih
        { st with
            bookings := newBooking st spotId s e 1 q.userId q.cost q.bytes q.rand
              :: st.bookings,
            next_id := st.next_id + 1 } hsp
        (fun q' hq' => hcost q' (List.mem_cons_of_mem _ hq'))
        hnodup'.2 hfresh1
      rw [hrun]
      constructor
      · have ihr1 := ihr.1
        rw [hdem] at ihr1
        simp only [List.countP_cons, ihr1, List.length_cons]
        rw [show (Except.isOk (.ok () : Except Err Unit)) = true from rfl, if_pos rfl]
        omega
      · intro x hx hxf
        rcases List.mem_cons.mp hx with rfl | hx
        · cases hxf
        · exact ihr.2 x hx hxf
    · have herr := @checkAndReserve_capacity_fail st spotId s e 1 q.userId q.cost
        q.bytes q.rand sp hsp hact hse (le_refl 1)
        (hcost q (List.mem_cons_self q qs)) (by omega)
      have hrun : runRequests spotId s e st (q :: qs) =
          ((runRequests spotId s e st qs).1,
           .error .capacityExhausted :: (runRequests spotId s e st qs).2) := by
        simp [runRequests, herr]
      have ihr := ih st hsp
        (fun q' hq' => hcost q' (List.mem_cons_of_mem _ hq'))
        ((List.nodup_cons.mp (by simpa using hnodup)).2)
        (fun q' hq' => hfresh q' (List.mem_cons_of_mem _ hq'))
      rw [hrun]
      constructor
      · simp only [List.countP_cons, ihr.1, List.length_cons]
        rw [show (Except.isOk (.error .capacityExhausted : Except Err Unit)) = false
          from rfl]
        simp only [Bool.false_eq_true, if_false]
        omega
      · intro x hx hxf
        rcases List.mem_cons.mp hx with rfl | hx
        · rfl
        · exact ihr.2 x hx hxf

/-- C2: under the spec's per-resource serialization requirement (§5), N
single-unit `checkAndReserve` calls on the same active resource and the same
valid interval, collectively requesting more units than remain, yield
exactly as many successes as the remaining capacity allows, and every other
call fails with `capacityExhausted` — in particular no serial schedule ever
admits two requests whose joint demand exceeds capacity. -/
theorem C2_no_oversell {spotId : Nat} {s e : Int} {sp : ParkingSpot}
    {st : EngineState} {reqs : List ReserveReq}
    (hsp : findSpot st spotId = some sp) (hact : sp.is_active = true)
    (hse : s < e) (hcost : ∀ q ∈ reqs, 0 < q.cost)
    (hnodup : (reqs.map fun q => hexEncode q.bytes).Nodup)
    (hfresh : ∀ q ∈ reqs, ∀ b0 ∈ st.bookings, b0.qr_code ≠ hexEncode q.bytes)
    (hover : sp.total_slots - concurrentDemand st spotId s e < (reqs.length : Int)) :
    ((runRequests spotId s e st reqs).2.countP Except.isOk
        = (sp.total_slots - concurrentDemand st spotId s e).toNat) ∧
    (∀ x ∈ (runRequests spotId s e st reqs).2, x.isOk = false →
        x = .error .capacityExhausted) := by
  obtain ⟨hc, hf⟩ :=
    runRequests_count spotId s e sp hact hse reqs st hsp hcost hnodup hfresh
  refine ⟨?_, hf⟩
  rw [hc]
  omega

/-- Witness for C2: one free slot, two competing single-unit requests. -/
theorem C2_no_oversell_witness :
    ((runRequests 1 0 1 wState
        [⟨8, 100, [0], 0⟩, ⟨9, 100, [1], 0⟩]).2.countP Except.isOk
      = (wSpot.total_slots - concurrentDemand wState 1 0 1).toNat) ∧
    (∀ x ∈ (runRequests 1 0 1 wState [⟨8, 100, [0], 0⟩, ⟨9, 100, [1], 0⟩]).2,
      x.isOk = false → x = .error .capacityExhausted) :=
  C2_no_oversell (by decide) (by decide) (by decide) (by decide) (by decide)
    (by decide) (by decide)

/-! ### C4, C8, C9, C10 -/

theorem hexPairs_length (bytes : List Nat) :
    ((bytes.map fun b => [hexDigit (b / 16), hexDigit (b % 16)]).flatten).length
      = 2 * bytes.length := by
  induction bytes with
  | nil => rfl
  | cons b bs ih =>
    simp only [List.map_cons, List.flatten_cons, List.length_append, ih,
      List.length_cons, List.length_nil]
    omega

/-- C4: at every reachable state, distinct non-terminal bookings carry
distinct codes (the `qr_code UNIQUE` constraint holds pairwise over all
rows); the code given to a booking at creation is exactly the hex encoding
of the 16 random-oracle bytes, which has 32 characters. -/
theorem C4_code_unique {st : EngineState} (h : Reachable st) :
    (∀ b1 ∈ st.bookings, ∀ b2 ∈ st.bookings,
      b1.status.isTerminal = false → b2.status.isTerminal = false →
      b1 ≠ b2 → b1.qr_code ≠ b2.qr_code) ∧
    (∀ (spotId : Nat) (s e units : Int) (userId : Nat) (cost : Int)
      (bytes : List Nat) (r : ℚ) (st1 : EngineState) (b : Booking),
      checkAndReserve st spotId s e units userId cost bytes r = .ok (st1, b) →
      b.qr_code = hexEncode bytes) ∧
    (∀ bytes : List Nat, bytes.length = 16 → (hexEncode bytes).length = 32) := by
  obtain ⟨hcode, -, -, -, -⟩ := inv_reachable h
  refine ⟨?_, ?_, ?_⟩
  · intro b1 h1 b2 h2 _ _ hne
    exact List.Pairwise.forall (by intro x y hxy hc; exact hxy hc.symm) hcode h1 h2 hne
  · intro spotId s e units userId cost bytes r st1 b hok
    rw [(checkAndReserve_ok hok).1]
    rfl
  · intro bytes hlen
    have h2 : (hexEncode bytes).length = 2 * bytes.length := hexPairs_length bytes
    rw [h2, hlen]

/-- Witness for C4 at the (reachable) empty database. -/
theorem C4_code_unique_witness :
    ((∀ b1 ∈ initState.bookings, ∀ b2 ∈ initState.bookings,
       b1.status.isTerminal = false → b2.status.isTerminal = false →
       b1 ≠ b2 → b1.qr_code ≠ b2.qr_code) ∧
     (∀ (spotId : Nat) (s e units : Int) (userId : Nat) (cost : Int)
       (bytes : List Nat) (r : ℚ) (st1 : EngineState) (b : Booking),
       checkAndReserve initState spotId s e units userId cost bytes r = .ok (st1, b) →
       b.qr_code = hexEncode bytes) ∧
     (∀ bytes : List Nat, bytes.length = 16 → (hexEncode bytes).length = 32)) :=
  C4_code_unique Relation.ReflTransGen.refl

/-- C8: every persisted booking satisfies `end > start` and
`total_cost > 0`; a malformed interval or non-positive cost is rejected with
a validation error before any mutation, and a direct insert violating either
CHECK constraint is refused. -/
theorem C8_booking_validity {st : EngineState} (h : Reachable st) :
    (∀ b ∈ st.bookings, b.start_time < b.end_time ∧ 0 < b.total_cost) ∧
    (∀ (spotId : Nat) (s e units : Int) (userId : Nat) (cost : Int)
      (bytes : List Nat) (r : ℚ), e ≤ s ∨ cost ≤ 0 →
      checkAndReserve st spotId s e units userId cost bytes r =
        .error .validationError) ∧
    (∀ b : Booking, b.end_time ≤ b.start_time ∨ b.total_cost ≤ 0 →
      insertBooking st b = none) := by
  obtain ⟨-, -, -, hbook, -⟩ := inv_reachable h
  refine ⟨hbook, ?_, ?_⟩
  · intro spotId s e units userId cost bytes r hbad
    unfold checkAndReserve
    rw [if_pos (by omega)]
  · intro b hbad
    unfold insertBooking
    rw [if_neg]
    rintro ⟨h1, h2, -⟩
    omega

/-- Witness for C8 at the (reachable) empty database. -/
theorem C8_booking_validity_witness :
    ((∀ b ∈ initState.bookings, b.start_time < b.end_time ∧ 0 < b.total_cost) ∧
     (∀ (spotId : Nat) (s e units : Int) (userId : Nat) (cost : Int)
       (bytes : List Nat) (r : ℚ), e ≤ s ∨ cost ≤ 0 →
       checkAndReserve initState spotId s e units userId cost bytes r =
         .error .validationError) ∧
     (∀ b : Booking, b.end_time ≤ b.start_time ∨ b.total_cost ≤ 0 →
       insertBooking initState b = none)) :=
  C8_booking_validity Relation.ReflTransGen.refl

/-- A concrete external-system signup row. -/
def wAuthUser : AuthUser :=
  { id := 1, email := "anna@example.com", meta_name := none, meta_role := none }

/-- C9 counterexample: an insert into `auth.users` performed by the external
identity system does change the core's profile state — the
`on_auth_user_created` trigger fires `handle_new_user`, so the claim that
the core never reacts to external-system row inserts is false for this code. -/
theorem C9_counterexample :
    (insertAuthUser initState wAuthUser).profiles ≠ initState.profiles := by
  decide

/-- C9 (amended): inserting a row into `auth.users` automatically creates
exactly one profile for the new user — name defaulting to the email's local
part, role defaulting to `'user'` — and touches nothing else; provisioning
is a trigger reaction, not an explicit identity-collaborator call. -/
theorem C9_trigger_creates_profile (st : EngineState) (u : AuthUser) :
    (insertAuthUser st u).profiles =
      ({ id := u.id, email := u.email,
         name := u.meta_name.getD (splitPart1 u.email),
         role := u.meta_role.getD .user } : Profile) :: st.profiles ∧
    (insertAuthUser st u).bookings = st.bookings ∧
    (insertAuthUser st u).spots = st.spots ∧
    (insertAuthUser st u).slips = st.slips ∧
    (insertAuthUser st u).reviews = st.reviews :=
  ⟨rfl, rfl, rfl, rfl, rfl⟩

/-- C10: at every reachable state every parking-spot row satisfies
`0 ≤ available_slots ≤ total_slots`; any counter update that keeps a row is
bound-preserving, and an update that would violate the `valid_slots` CHECK
on some matching row is rejected whole. -/
theorem C10_slots_bounds {st : EngineState} (h : Reachable st) :
    (∀ sp ∈ st.spots, 0 ≤ sp.available_slots ∧ sp.available_slots ≤ sp.total_slots) ∧
    (∀ (spotId : Nat) (n : Int) (st1 : EngineState),
      updateAvailableSlots st spotId n = some st1 →
      ∀ sp ∈ st1.spots, 0 ≤ sp.available_slots ∧ sp.available_slots ≤ sp.total_slots) ∧
    (∀ (spotId : Nat) (n : Int),
      (∃ sp ∈ st.spots, sp.id = spotId ∧ (n < 0 ∨ sp.total_slots < n)) →
      updateAvailableSlots st spotId n = none) := by
  obtain ⟨-, -, -, -, hspot⟩ := inv_reachable h
  refine ⟨hspot, ?_, ?_⟩
  · intro spotId n st1 hupd
    exact (updateAvailableSlots_some hupd).1
  · rintro spotId n ⟨sp, hsp, hid, hviol⟩
    unfold updateAvailableSlots
    simp only
    rw [if_neg]
    intro hall
    have hmem : ({ sp with available_slots := n } : ParkingSpot) ∈
        st.spots.map (fun sp0 =>
          if sp0.id == spotId then { sp0 with available_slots := n } else sp0) := by
      refine List.mem_map.mpr ⟨sp, hsp, ?_⟩
      rw [if_pos (by simp [hid])]
    have hb := hall _ hmem
    simp only at hb
    omega

/-- Witness for C10 at the (reachable) empty database. -/
theorem C10_slots_bounds_witness :
    ((∀ sp ∈ initState.spots,
       0 ≤ sp.available_slots ∧ sp.available_slots ≤ sp.total_slots) ∧
     (∀ (spotId : Nat) (n : Int) (st1 : EngineState),
       updateAvailableSlots initState spotId n = some st1 →
       ∀ sp ∈ st1.spots, 0 ≤ sp.available_slots ∧ sp.available_slots ≤ sp.total_slots) ∧
     (∀ (spotId : Nat) (n : Int),
       (∃ sp ∈ initState.spots, sp.id = spotId ∧ (n < 0 ∨ sp.total_slots < n)) →
       updateAvailableSlots initState spotId n = none)) :=
  C10_slots_bounds Relation.ReflTransGen.refl

end ParkPass
